import Mathlib

set_option linter.unusedVariables false

/-!
Verification of the rate-limiter and rate-limited scraper core of the
`awesome-tools` repository (`rate-limiter/ratelimiter.go`, `scraper/scraper.go`).

The embedding has two layers.

1. A functional layer for the synchronous Go code: constructors and the
   synchronous prefix of `ScrapeURLs` become Lean functions.  Go panics
   (division by zero, `make` with a negative capacity, `time.NewTicker` with a
   non-positive period) are modelled as `Option.none`/explicit `Option`
   results, since the Go functions have no error return at all.

2. A small-step operational layer for the concurrent behaviour: the goroutines
   started by `NewRateLimiter` and `ScrapeURLs` become labelled transition
   systems (`RLStep` for the rate limiter alone, `PStep` for the whole worker
   pool with the limiter inlined).  Go channels are modelled by their
   observable contents: a buffered channel is a list/counter bounded by its
   capacity (a send on a full buffer is a disabled transition, which is
   exactly the blocking behaviour), an unbuffered channel send is a rendezvous
   transition requiring the receiver to be at its `select`.  Nondeterministic
   `select` choice becomes nondeterministic choice between enabled
   transitions.  Context cancellation is a monotone boolean flag set by an
   environment transition.

The scrape function `scrapeURL` calls `net/http`; the network is modelled by
an oracle `Transport`, and the documented behaviour of `http.Client.Do` under
an already-cancelled context (it returns an error wrapping `context.Canceled`)
is modelled by the `cancelled` flag branch.
-/

namespace AwesomeTools

/-- Errors observable in a `Result.Error` field. `ctxCanceled` stands for any
Go error whose chain contains `context.Canceled` (e.g. the `*url.Error`
returned by `http.Client.Do` once the request context is cancelled). -/
inductive GoError where
  | ctxCanceled : GoError
  | transport : String → GoError
  deriving DecidableEq, Repr

/-- `scraper.Result`: `{URL, Content, Error}` as in `scraper.go`. -/
structure Result where
  URL : String
  Content : String
  Error : Option GoError
  deriving DecidableEq, Repr

/-- The network oracle standing for `http.Client`: for each URL, either a
transport error or a status code.  Request building errors of
`http.NewRequestWithContext` (malformed URL) are folded into the error case. -/
def Transport : Type := String → Except GoError Nat

/-- A scrape function `func(ctx, url) Result`; the `Bool` argument is the
observable state of the context (`true` = cancelled) when the call returns. -/
def ScrapeFunc : Type := Bool → String → Result

/-- Shallow embedding of `scraper.scrapeURL`: with a cancelled context,
`client.Do` fails with an error wrapping `context.Canceled`; otherwise the
transport answers, and a response becomes `Status: <code>` with a nil error. -/
def scrapeURL (tr : Transport) : ScrapeFunc := fun cancelled url =>
  if cancelled then
    { URL := url, Content := "", Error := some .ctxCanceled }
  else
    match tr url with
    | .error e => { URL := url, Content := "", Error := some e }
    | .ok code => { URL := url, Content := "Status: " ++ toString code, Error := none }

/-- The `ratelimiter.RateLimiter` handle: the Go struct holds two channels;
the observable datum of `limitCh` fixed at creation is its capacity
(`make(chan struct{}, intervals)`), and `stopCh` is unbuffered. -/
structure RateLimiter where
  limitCap : Nat
  deriving DecidableEq, Repr

/-- Go integer division (`time.Duration` division truncates toward zero). -/
def goDiv (a b : Int) : Int := Int.tdiv a b

/-- Shallow embedding of the synchronous body of `ratelimiter.NewRateLimiter`:
it performs NO validation of `intervals` and cannot return an error (its Go
signature is `RateLimiter`, not `(RateLimiter, error)`).  The only synchronous
failure is the runtime panic of `make(chan struct{}, intervals)` on a negative
capacity, modelled as `none`. -/
def NewRateLimiter (timeSpan intervals : Int) : Option RateLimiter :=
  if intervals < 0 then none else some { limitCap := intervals.toNat }

/-- The ticker period computed inside the goroutine started by
`NewRateLimiter`: `timeSpan / time.Duration(intervals)`.  `none` models a
runtime panic: division by zero when `intervals = 0`, and the
`time.NewTicker` panic when the resulting period is non-positive. -/
def tickerPeriod (timeSpan intervals : Int) : Option Int :=
  if intervals = 0 then none
  else if goDiv timeSpan intervals ≤ 0 then none
  else some (goDiv timeSpan intervals)

/-! ## Rate-limiter transition system

State of `NewRateLimiter`'s goroutine, its channels, and their clients.
`tokens` is the content of `limitCh` (count of buffered empty structs);
`issued` and `acquiredTrue`/`acquiredFalse` are history counters for the
tokens ever sent into `limitCh` and the completed `Wait` calls by outcome;
`pendingStops`/`completedStops` count `Stop()` calls blocked in the
unbuffered send on `stopCh` and those whose send completed. -/
structure RLState where
  tokens : Nat
  issued : Nat
  acquiredTrue : Nat
  acquiredFalse : Nat
  cancelled : Bool
  tickerAlive : Bool
  pendingStops : Nat
  completedStops : Nat
  deriving DecidableEq, Repr

/-- Initial state right after `NewRateLimiter` returns: empty buffer, ticker
goroutine running, context not cancelled, no `Stop` in flight. -/
def RLState.init : RLState :=
  { tokens := 0, issued := 0, acquiredTrue := 0, acquiredFalse := 0,
    cancelled := false, tickerAlive := true, pendingStops := 0, completedStops := 0 }

/-- One interleaving step of the rate limiter: the ticker goroutine's
`select` loop (`ratelimiter.go` lines 24-37), a client inside `Wait`
(lines 47-54), a client inside `Stop` (lines 64-66), or the environment
cancelling the context. -/
inductive RLStep (cap : Nat) : RLState → RLState → Prop where
  /-- The environment cancels the context shared at creation. -/
  | cancel (s : RLState) : s.cancelled = false →
      RLStep cap s { s with cancelled := true }
  /-- `case <-ticker.C: limitCh <- struct{}{}`: the send completes only while
  the buffer has room; on a full buffer the goroutine blocks, i.e. the
  transition is disabled. -/
  | tick (s : RLState) : s.tickerAlive = true → s.tokens < cap →
      RLStep cap s { s with tokens := s.tokens + 1, issued := s.issued + 1 }
  /-- `case <-ctx.Done(): return` in the ticker goroutine. -/
  | tickerCtxExit (s : RLState) : s.tickerAlive = true → s.cancelled = true →
      RLStep cap s { s with tickerAlive := false }
  /-- A `Wait` caller receives from `limitCh` and returns `true`, consuming
  exactly one token. -/
  | waitTrue (s : RLState) : 0 < s.tokens →
      RLStep cap s { s with tokens := s.tokens - 1, acquiredTrue := s.acquiredTrue + 1 }
  /-- A `Wait` caller takes the `<-ctx.Done()` branch and returns `false`,
  consuming no token. -/
  | waitFalse (s : RLState) : s.cancelled = true →
      RLStep cap s { s with acquiredFalse := s.acquiredFalse + 1 }
  /-- A client calls `Stop()` and begins the unbuffered send `stopCh <- struct{}{}`. -/
  | stopCall (s : RLState) :
      RLStep cap s { s with pendingStops := s.pendingStops + 1 }
  /-- The rendezvous `case <-stopCh: return`: one blocked `Stop` completes and
  the ticker goroutine returns.  It requires the goroutine to still be at its
  `select`. -/
  | stopComplete (s : RLState) : s.tickerAlive = true → 0 < s.pendingStops →
      RLStep cap s { s with tickerAlive := false,
                            pendingStops := s.pendingStops - 1,
                            completedStops := s.completedStops + 1 }

/-- Reachability for the rate-limiter system. -/
def RLReach (cap : Nat) : RLState → RLState → Prop :=
  Relation.ReflTransGen (RLStep cap)

/-- Inductive invariant of the rate limiter used by several claims. -/
def RLInv (cap : Nat) (s : RLState) : Prop :=
  s.tokens ≤ cap ∧
  s.issued = s.tokens + s.acquiredTrue ∧
  s.completedStops ≤ 1 ∧
  (s.completedStops = 1 → s.tickerAlive = false)

theorem rlInv_init (cap : Nat) : RLInv cap RLState.init := by
  refine ⟨Nat.zero_le _, rfl, Nat.zero_le _, ?_⟩
  intro h
  simp [RLState.init] at h

theorem rlInv_step {cap : Nat} {s t : RLState} (hs : RLInv cap s)
    (h : RLStep cap s t) : RLInv cap t := by
  obtain ⟨h1, h2, h3, h4⟩ := hs
  cases h with
  | cancel hc => exact ⟨h1, h2, h3, h4⟩
  | tick ha hlt =>
      refine ⟨hlt, ?_, h3, h4⟩
      simp only [h2]
      omega
  | tickerCtxExit ha hc =>
      exact ⟨h1, h2, h3, fun _ => rfl⟩
  | waitTrue hpos =>
      refine ⟨Nat.le_trans (Nat.sub_le _ _) h1, ?_, h3, h4⟩
      simp only [h2]
      omega
  | waitFalse hc => exact ⟨h1, h2, h3, h4⟩
  | stopCall => exact ⟨h1, h2, h3, h4⟩
  | stopComplete ha hp =>
      refine ⟨h1, h2, ?_, fun _ => rfl⟩
      -- a completion kills the ticker, and a previous completion would
      -- contradict `tickerAlive = true`
      by_cases hz : s.completedStops = 0
      · simp only
        omega
      · have := h4 (by omega)
        rw [this] at ha
        cases ha

theorem rlInv_reach {cap : Nat} {s : RLState} (h : RLReach cap RLState.init s) :
    RLInv cap s := by
  induction h with
  | refl => exact rlInv_init cap
  | tail _ hstep ih => exact rlInv_step ih hstep

/-- C2: in every state reachable from creation, the number of
issued-but-unconsumed tokens (the content of `limitCh`) is at most the
channel capacity `intervals`: the ticking goroutine blocks on a full buffer
and can never accumulate more than `intervals` unconsumed tokens. -/
theorem c2_tokens_bounded (cap : Nat) (s : RLState)
    (h : RLReach cap RLState.init s) : s.tokens ≤ cap :=
  (rlInv_reach h).1

/-- Witness for C2: a concrete reachable state of a limiter with
`intervals = 1` after one tick, holding one token, within the bound. -/
theorem c2_tokens_bounded_witness :
    RLReach 1 RLState.init
      { tokens := 1, issued := 1, acquiredTrue := 0, acquiredFalse := 0,
        cancelled := false, tickerAlive := true, pendingStops := 0,
        completedStops := 0 } ∧
    ({ tokens := 1, issued := 1, acquiredTrue := 0, acquiredFalse := 0,
       cancelled := false, tickerAlive := true, pendingStops := 0,
       completedStops := 0 } : RLState).tokens ≤ 1 := by
  have htr : RLReach 1 RLState.init
      { tokens := 1, issued := 1, acquiredTrue := 0, acquiredFalse := 0,
        cancelled := false, tickerAlive := true, pendingStops := 0,
        completedStops := 0 } :=
    Relation.ReflTransGen.single (RLStep.tick RLState.init rfl (by decide))
  exact ⟨htr, c2_tokens_bounded 1 _ htr⟩

/-- C5: token conservation for `Wait`.  Every token ever issued is either
still buffered or was consumed by exactly one completed `Wait` that returned
`true`; moreover any step completing a `Wait` with `true` consumes exactly one
token (it requires one and decrements the buffer), and any step completing a
`Wait` with `false` happens only under cancellation and consumes none. -/
theorem c5_acquire_consumes_exactly_one (cap : Nat) (s : RLState)
    (h : RLReach cap RLState.init s) :
    s.issued = s.tokens + s.acquiredTrue ∧
    (∀ t, RLStep cap s t →
      (t.acquiredTrue = s.acquiredTrue + 1 →
        0 < s.tokens ∧ t.tokens = s.tokens - 1 ∧ t.issued = s.issued) ∧
      (t.acquiredFalse = s.acquiredFalse + 1 →
        t.tokens = s.tokens ∧ s.cancelled = true)) := by
  refine ⟨(rlInv_reach h).2.1, ?_⟩
  intro t hstep
  cases hstep with
  | cancel hc => exact ⟨fun hh => by simp at hh, fun hh => by simp at hh⟩
  | tick ha hlt => exact ⟨fun hh => by simp at hh, fun hh => by simp at hh⟩
  | tickerCtxExit ha hc => exact ⟨fun hh => by simp at hh, fun hh => by simp at hh⟩
  | waitTrue hpos => exact ⟨fun _ => ⟨hpos, rfl, rfl⟩, fun hh => by simp at hh⟩
  | waitFalse hc => exact ⟨fun hh => by simp at hh, fun _ => ⟨rfl, hc⟩⟩
  | stopCall => exact ⟨fun hh => by simp at hh, fun hh => by simp at hh⟩
  | stopComplete ha hp => exact ⟨fun hh => by simp at hh, fun hh => by simp at hh⟩

/-- Witness for C5: the conservation equality evaluated in a concrete
reachable state (one tick, then one successful `Wait`). -/
theorem c5_acquire_consumes_exactly_one_witness :
    RLReach 1 RLState.init
      { tokens := 0, issued := 1, acquiredTrue := 1, acquiredFalse := 0,
        cancelled := false, tickerAlive := true, pendingStops := 0,
        completedStops := 0 } ∧
    (1 : Nat) = 0 + 1 := by
  have h1 : RLStep 1 RLState.init
      { tokens := 1, issued := 1, acquiredTrue := 0, acquiredFalse := 0,
        cancelled := false, tickerAlive := true, pendingStops := 0,
        completedStops := 0 } :=
    RLStep.tick RLState.init rfl (by decide)
  have h2 : RLStep 1
      { tokens := 1, issued := 1, acquiredTrue := 0, acquiredFalse := 0,
        cancelled := false, tickerAlive := true, pendingStops := 0,
        completedStops := 0 }
      { tokens := 0, issued := 1, acquiredTrue := 1, acquiredFalse := 0,
        cancelled := false, tickerAlive := true, pendingStops := 0,
        completedStops := 0 } :=
    RLStep.waitTrue _ (by decide)
  have htr : RLReach 1 RLState.init
      { tokens := 0, issued := 1, acquiredTrue := 1, acquiredFalse := 0,
        cancelled := false, tickerAlive := true, pendingStops := 0,
        completedStops := 0 } :=
    Relation.ReflTransGen.tail (Relation.ReflTransGen.single h1) h2
  exact ⟨htr, (c5_acquire_consumes_exactly_one 1 _ htr).1⟩

/-- Any step from a state whose ticker goroutine has exited preserves that
fact, never completes a `Stop`, and never unblocks a pending `Stop` caller:
the unbuffered send in `Stop()` has no receiver left. -/
theorem rl_dead_ticker_step {cap : Nat} {s t : RLState} (h : RLStep cap s t)
    (hd : s.tickerAlive = false) :
    t.tickerAlive = false ∧ t.completedStops = s.completedStops ∧
      s.pendingStops ≤ t.pendingStops := by
  cases h with
  | cancel hc => exact ⟨hd, rfl, Nat.le_refl _⟩
  | tick ha hlt => rw [hd] at ha; cases ha
  | tickerCtxExit ha hc => rw [hd] at ha; cases ha
  | waitTrue hpos => exact ⟨hd, rfl, Nat.le_refl _⟩
  | waitFalse hc => exact ⟨hd, rfl, Nat.le_refl _⟩
  | stopCall => exact ⟨hd, rfl, Nat.le_succ _⟩
  | stopComplete ha hp => rw [hd] at ha; cases ha

/-- The concrete state reached by `Stop(); Stop()`: the first call completed
its rendezvous and killed the ticker goroutine; the second caller is blocked
in the unbuffered send on `stopCh`. -/
def rlSecondStopState : RLState :=
  { tokens := 0, issued := 0, acquiredTrue := 0, acquiredFalse := 0,
    cancelled := false, tickerAlive := false, pendingStops := 1,
    completedStops := 1 }

/-- C4 is false on the code: `Stop` is a blocking send on the unbuffered
`stopCh`, so after one completed `Stop` the ticker goroutine is gone and a
second `Stop` call blocks forever — in every state reachable from the
two-`Stop` scenario the second call is still pending and never completes.
The spec itself flags this as a latent defect of the source design. -/
theorem c4_second_stop_never_completes :
    RLReach 2 RLState.init rlSecondStopState ∧
    rlSecondStopState.completedStops = 1 ∧
    ∀ t, RLReach 2 rlSecondStopState t →
      t.completedStops = 1 ∧ 0 < t.pendingStops ∧ t.tickerAlive = false := by
  refine ⟨?_, rfl, ?_⟩
  · have h1 : RLStep 2 RLState.init
        { tokens := 0, issued := 0, acquiredTrue := 0, acquiredFalse := 0,
          cancelled := false, tickerAlive := true, pendingStops := 1,
          completedStops := 0 } :=
      RLStep.stopCall RLState.init
    have h2 : RLStep 2
        { tokens := 0, issued := 0, acquiredTrue := 0, acquiredFalse := 0,
          cancelled := false, tickerAlive := true, pendingStops := 1,
          completedStops := 0 }
        { tokens := 0, issued := 0, acquiredTrue := 0, acquiredFalse := 0,
          cancelled := false, tickerAlive := false, pendingStops := 0,
          completedStops := 1 } :=
      RLStep.stopComplete _ rfl (by decide)
    have h3 : RLStep 2
        { tokens := 0, issued := 0, acquiredTrue := 0, acquiredFalse := 0,
          cancelled := false, tickerAlive := false, pendingStops := 0,
          completedStops := 1 } rlSecondStopState :=
      RLStep.stopCall _
    exact Relation.ReflTransGen.tail
      (Relation.ReflTransGen.tail (Relation.ReflTransGen.single h1) h2) h3
  · intro t ht
    have : t.tickerAlive = false ∧ t.completedStops = 1 ∧ 1 ≤ t.pendingStops := by
      induction ht with
      | refl => exact ⟨rfl, rfl, Nat.le_refl _⟩
      | tail _ hstep ih =>
          obtain ⟨ha, hc, hp⟩ := ih
          obtain ⟨ha', hc', hp'⟩ := rl_dead_ticker_step hstep ha
          exact ⟨ha', by rw [hc', hc], Nat.le_trans hp hp'⟩
    exact ⟨this.2.1, this.2.2, this.1⟩

/-- C3 evidence: `NewRateLimiter` performs no validation of `intervals` — at
`intervals = 0` it succeeds and returns a handle (its Go signature cannot even
return an error), and the ticker period computed afterwards inside the
background goroutine is a division by zero (a runtime panic, `none`), which
therefore does reach the scheduler instead of failing fast at creation. -/
theorem c3_no_validation_div_by_zero :
    NewRateLimiter 1000000000 0 = some { limitCap := 0 } ∧
    tickerPeriod 1000000000 0 = none := by
  constructor <;> rfl

/-! ## Scraper functional layer -/

/-- `scraper.RateLimitedScraper`.  The `http.Client{Timeout: ...}` field is
represented by its configured timeout; the rate limiter pointer by an
`Option`; `scrapeFunc` by a `ScrapeFunc`. -/
structure RateLimitedScraper where
  clientTimeoutSec : Nat
  rlm : Option RateLimiter
  maxWorkers : Nat
  scrapeFunc : ScrapeFunc

/-- `scraper.ScrapeTimeoutDuration = 10 * time.Second`. -/
def ScrapeTimeoutDuration : Nat := 10

/-- Shallow embedding of `scraper.NewScraper(rps, maxWorkers)`: it builds the
client, stores `maxWorkers`, leaves `rlm` nil and installs `s.scrapeURL` as
the default scrape function.  The `rps` parameter is not mentioned in the
body at all. -/
def NewScraper (tr : Transport) (rps : Int) (maxWorkers : Nat) : RateLimitedScraper :=
  { clientTimeoutSec := ScrapeTimeoutDuration,
    rlm := none,
    maxWorkers := maxWorkers,
    scrapeFunc := scrapeURL tr }

/-- Shallow embedding of `(*RateLimitedScraper).SetRateLimit`: builds a fresh
rate limiter from `(timeSpan, intervals)` and stores its address; a `make`
panic inside `NewRateLimiter` propagates (`none`). -/
def SetRateLimit (s : RateLimitedScraper) (timeSpan intervals : Int) :
    Option RateLimitedScraper :=
  (NewRateLimiter timeSpan intervals).map fun r => { s with rlm := some r }

/-- Shallow embedding of `(*RateLimitedScraper).SetScrapeFunc`. -/
def SetScrapeFunc (s : RateLimitedScraper) (fn : ScrapeFunc) : RateLimitedScraper :=
  { s with scrapeFunc := fn }

/-! ## Worker-pool transition system

State of the processes started by `ScrapeURLs` plus the inlined state of the
attached rate limiter: the seeding goroutine, the `maxWorkers` worker
goroutines, the supervisory goroutine (`wg.Wait(); close(results); s.rlm.Stop()`)
and the limiter's ticker goroutine. -/

/-- The control state of one worker goroutine (`scraper.go` lines 76-98).
Workers holding an item record it; a worker that finished a scrape holds the
item identifier (ghost data, for accounting) and the produced `Result`. -/
inductive WState where
  | awaiting : WState
  | gotItem : String → WState
  | scraping : String → WState
  | sending : String → Result → WState
  | done : WState
  deriving DecidableEq, Repr

/-- The control state of the supervisory goroutine: blocked in `wg.Wait()`,
blocked in the `Stop()` rendezvous after closing `results`, or returned. -/
inductive SupState where
  | waiting : SupState
  | stopping : SupState
  | done : SupState
  deriving DecidableEq, Repr

/-- Global state of one `ScrapeURLs` run.  `toSeed` is what the seeding
goroutine has not yet pushed; `urlChan` the buffered item queue (capacity
`len(urls)`, never full); `tokens`/`limitCap`/`tickerAlive` the inlined rate
limiter; `results` the buffered output channel contents paired with the ghost
identity of the item that produced each entry; `droppedItems` a ghost list of
items abandoned on a cancellation path; `closeCalls`/`stopCalls` ghost
counters of executed `close(results)` and begun `Stop()` calls. -/
structure PoolState where
  cancelled : Bool
  toSeed : List String
  urlChan : List String
  urlClosed : Bool
  tokens : Nat
  limitCap : Nat
  tickerAlive : Bool
  workers : List WState
  results : List (String × Result)
  resultsClosed : Bool
  sup : SupState
  closeCalls : Nat
  stopCalls : Nat
  droppedItems : List String
  deriving DecidableEq, Repr

/-- The pool state at the instant `ScrapeURLs` returns its channel: all items
still to seed, `maxWorkers` workers ranging over the (still open) queue, the
limiter ticking, the supervisor in `wg.Wait()`. -/
def initPool (urls : List String) (nWorkers cap : Nat) : PoolState :=
  { cancelled := false, toSeed := urls, urlChan := [], urlClosed := false,
    tokens := 0, limitCap := cap, tickerAlive := true,
    workers := List.replicate nWorkers .awaiting,
    results := [], resultsClosed := false, sup := .waiting,
    closeCalls := 0, stopCalls := 0, droppedItems := [] }

/-- Shallow embedding of the synchronous prefix of
`(*RateLimitedScraper).ScrapeURLs`: with no rate limiter attached it returns
the configuration error before anything starts; otherwise it allocates the
channels, starts the goroutines and returns the stream — here, the initial
state of the transition system that those goroutines form. -/
def ScrapeURLs (s : RateLimitedScraper) (urls : List String) :
    Except String PoolState :=
  match s.rlm with
  | none => .error "rate limiter not set"
  | some r => .ok (initPool urls s.maxWorkers r.limitCap)

/-- Items currently owned by a worker (ghost accounting). -/
def heldOf : WState → Multiset String
  | .awaiting => 0
  | .gotItem u => {u}
  | .scraping u => {u}
  | .sending u _ => {u}
  | .done => 0

/-- Items owned by a list of workers. -/
def heldAll (ws : List WState) : Multiset String := (ws.map heldOf).sum

/-- Every submitted item, wherever it currently is: not yet seeded, queued,
held by a worker, delivered as a result, or dropped by cancellation. -/
def urlAccount (s : PoolState) : Multiset String :=
  (s.toSeed : Multiset String) + (s.urlChan : Multiset String) +
    heldAll s.workers + ((s.results.map Prod.fst : List String) : Multiset String) +
    (s.droppedItems : Multiset String)

/-- One interleaving step of a `ScrapeURLs` run under scrape function `f`. -/
inductive PStep (f : ScrapeFunc) : PoolState → PoolState → Prop where
  /-- The environment cancels the shared context. -/
  | cancel (s : PoolState) : s.cancelled = false →
      PStep f s { s with cancelled := true }
  /-- The seeding goroutine pushes the next item (`case urlChan <- url`); the
  queue has capacity `len(urls)` so the send is always enabled. -/
  | seed (s : PoolState) (u : String) (rest : List String) :
      s.urlClosed = false → s.toSeed = u :: rest →
      PStep f s { s with toSeed := rest, urlChan := s.urlChan ++ [u] }
  /-- The seeding goroutine runs out of items and its deferred
  `close(urlChan)` fires. -/
  | seedDone (s : PoolState) : s.urlClosed = false → s.toSeed = [] →
      PStep f s { s with urlClosed := true }
  /-- The seeding goroutine takes `case <-ctx.Done()`: remaining items are
  silently dropped and the deferred `close(urlChan)` still fires. -/
  | seedCancel (s : PoolState) : s.urlClosed = false → s.cancelled = true →
      PStep f s { s with toSeed := [], urlClosed := true,
                         droppedItems := s.droppedItems ++ s.toSeed }
  /-- A worker's `for url := range urlChan` receives an item. -/
  | workerTake (s : PoolState) (l r : List WState) (u : String) (rest : List String) :
      s.workers = l ++ .awaiting :: r → s.urlChan = u :: rest →
      PStep f s { s with workers := l ++ .gotItem u :: r, urlChan := rest }
  /-- A worker's `range` loop ends: the queue is exhausted and closed;
  `wg.Done()` runs. -/
  | workerExit (s : PoolState) (l r : List WState) :
      s.workers = l ++ .awaiting :: r → s.urlChan = [] → s.urlClosed = true →
      PStep f s { s with workers := l ++ .done :: r }
  /-- `case <-s.rlm.LimitCh(ctx)`: the worker consumes one token and starts
  the scrape. -/
  | workerToken (s : PoolState) (l r : List WState) (u : String) :
      s.workers = l ++ .gotItem u :: r → 0 < s.tokens →
      PStep f s { s with workers := l ++ .scraping u :: r, tokens := s.tokens - 1 }
  /-- `case <-ctx.Done()` while waiting for a token: the worker returns and
  the item is dropped. -/
  | workerTokenCancel (s : PoolState) (l r : List WState) (u : String) :
      s.workers = l ++ .gotItem u :: r → s.cancelled = true →
      PStep f s { s with workers := l ++ .done :: r,
                         droppedItems := s.droppedItems ++ [u] }
  /-- `result := s.scrapeFunc(ctx, url)` returns; the `Result` reflects the
  context state observed by the call. -/
  | workerScrape (s : PoolState) (l r : List WState) (u : String) :
      s.workers = l ++ .scraping u :: r →
      PStep f s { s with workers := l ++ .sending u (f s.cancelled u) :: r }
  /-- `case results <- result`: the buffered output channel (capacity
  `len(urls)`) accepts the `Result`; the worker loops back to the queue. -/
  | workerSend (s : PoolState) (l r : List WState) (u : String) (res : Result) :
      s.workers = l ++ .sending u res :: r →
      PStep f s { s with workers := l ++ .awaiting :: r,
                         results := s.results ++ [(u, res)] }
  /-- `case <-ctx.Done()` while sending: the worker returns, the `Result` is
  dropped. -/
  | workerSendCancel (s : PoolState) (l r : List WState) (u : String) (res : Result) :
      s.workers = l ++ .sending u res :: r → s.cancelled = true →
      PStep f s { s with workers := l ++ .done :: r,
                         droppedItems := s.droppedItems ++ [u] }
  /-- The limiter's ticker goroutine sends a token (`limitCh <- struct{}{}`),
  enabled only while the buffer has room. -/
  | tick (s : PoolState) : s.tickerAlive = true → s.tokens < s.limitCap →
      PStep f s { s with tokens := s.tokens + 1 }
  /-- The ticker goroutine takes `case <-ctx.Done(): return`. -/
  | tickerCtxExit (s : PoolState) : s.tickerAlive = true → s.cancelled = true →
      PStep f s { s with tickerAlive := false }
  /-- The supervisory goroutine: `wg.Wait()` returns once every worker has
  terminated; `close(results)` executes and the goroutine enters the
  `s.rlm.Stop()` rendezvous. -/
  | supClose (s : PoolState) : s.sup = .waiting → (∀ w ∈ s.workers, w = .done) →
      PStep f s { s with resultsClosed := true, sup := .stopping,
                         closeCalls := s.closeCalls + 1,
                         stopCalls := s.stopCalls + 1 }
  /-- The `Stop()` rendezvous completes: the ticker goroutine, still at its
  `select`, receives from `stopCh` and returns; the supervisor returns. -/
  | supStopDone (s : PoolState) : s.sup = .stopping → s.tickerAlive = true →
      PStep f s { s with sup := .done, tickerAlive := false }

/-- Reachability for a `ScrapeURLs` run. -/
def PReach (f : ScrapeFunc) : PoolState → PoolState → Prop :=
  Relation.ReflTransGen (PStep f)

theorem listCoe_cons (a : String) (l : List String) :
    ((a :: l : List String) : Multiset String) = {a} + ↑l := rfl

theorem listCoe_append (l₁ l₂ : List String) :
    ((l₁ ++ l₂ : List String) : Multiset String) = ↑l₁ + ↑l₂ := rfl

theorem listCoe_nil : (([] : List String) : Multiset String) = 0 := rfl

theorem heldAll_split (l r : List WState) (w : WState) :
    heldAll (l ++ w :: r) = heldAll l + heldOf w + heldAll r := by
  simp only [heldAll, List.map_append, List.map_cons, List.sum_append, List.sum_cons]
  abel

theorem heldAll_replicate_awaiting (n : Nat) :
    heldAll (List.replicate n WState.awaiting) = 0 := by
  simp [heldAll, List.map_replicate, heldOf]

theorem heldAll_all_done {ws : List WState} (h : ∀ w ∈ ws, w = WState.done) :
    heldAll ws = 0 := by
  induction ws with
  | nil => rfl
  | cons w ws ih =>
      have hw := h w (List.mem_cons_self _ _)
      have hws := ih fun x hx => h x (List.mem_cons_of_mem _ hx)
      simp [heldAll, hw, heldOf] at *
      simpa [heldAll] using hws

/-- Every pool transition conserves the accounting multiset: an item only ever
moves between "not yet seeded", the queue, a worker's hands, the result
stream, and the dropped ghost list. -/
theorem urlAccount_step {f : ScrapeFunc} {s t : PoolState} (h : PStep f s t) :
    urlAccount t = urlAccount s := by
  cases h with
  | cancel hc => rfl
  | seed u rest hcl hts =>
      simp only [urlAccount, hts, listCoe_cons, listCoe_append, listCoe_nil]
      abel
  | seedDone hcl hts => rfl
  | seedCancel hcl hc =>
      simp only [urlAccount, listCoe_nil, listCoe_append]
      abel
  | workerTake l r u rest hw hc =>
      simp only [urlAccount, hw, hc, heldAll_split, heldOf, listCoe_cons]
      abel
  | workerExit l r hw hc hcl =>
      simp only [urlAccount, hw, heldAll_split, heldOf]
  | workerToken l r u hw ht =>
      simp only [urlAccount, hw, heldAll_split, heldOf]
  | workerTokenCancel l r u hw hc =>
      simp only [urlAccount, hw, heldAll_split, heldOf, listCoe_append,
        listCoe_cons, listCoe_nil]
      abel
  | workerScrape l r u hw =>
      simp only [urlAccount, hw, heldAll_split, heldOf]
  | workerSend l r u res hw =>
      simp only [urlAccount, hw, heldAll_split, heldOf, List.map_append,
        List.map_cons, List.map_nil, listCoe_append, listCoe_cons, listCoe_nil]
      abel
  | workerSendCancel l r u res hw hc =>
      simp only [urlAccount, hw, heldAll_split, heldOf, listCoe_append,
        listCoe_cons, listCoe_nil]
      abel
  | tick ha hlt => rfl
  | tickerCtxExit ha hc => rfl
  | supClose hs hws => rfl
  | supStopDone hs ha => rfl

/-- Pool transitions preserve the number of workers. -/
theorem workers_length_step {f : ScrapeFunc} {s t : PoolState} (h : PStep f s t) :
    t.workers.length = s.workers.length := by
  cases h <;> simp_all

/-- Pool transitions never un-cancel the context. -/
theorem cancelled_mono_step {f : ScrapeFunc} {s t : PoolState} (h : PStep f s t)
    (hc : s.cancelled = true) : t.cancelled = true := by
  cases h <;> simp_all

/-- The inductive invariant of a `ScrapeURLs` run on item list `urls` with
scrape function `f`, covering: item conservation; that a never-cancelled run
drops nothing and all its results come from `f` with an uncancelled context;
that every result in any run is a return value of `f` for the item it is
paired with; that a closed queue has no unseeded items left; the supervisor
protocol (the stream is closed exactly when the single `close(results)` and
the single `Stop()` call have happened, and only with every worker
terminated); and that in an uncancelled run all workers can only have
terminated with the queue exhausted and closed. -/
def PoolInv (f : ScrapeFunc) (urls : List String) (s : PoolState) : Prop :=
  urlAccount s = ↑urls ∧
  (s.cancelled = false → s.droppedItems = []) ∧
  (s.cancelled = false → ∀ q ∈ s.results, q.2 = f false q.1) ∧
  (s.cancelled = false → ∀ u res, WState.sending u res ∈ s.workers → res = f false u) ∧
  (∀ q ∈ s.results, q.2 = f true q.1 ∨ q.2 = f false q.1) ∧
  (∀ u res, WState.sending u res ∈ s.workers → res = f true u ∨ res = f false u) ∧
  (s.urlClosed = true → s.toSeed = []) ∧
  (s.sup = SupState.waiting → s.resultsClosed = false ∧ s.closeCalls = 0 ∧ s.stopCalls = 0) ∧
  (s.sup ≠ SupState.waiting →
    s.resultsClosed = true ∧ s.closeCalls = 1 ∧ s.stopCalls = 1 ∧
    ∀ w ∈ s.workers, w = WState.done) ∧
  (s.cancelled = false → (∀ w ∈ s.workers, w = WState.done) → s.workers ≠ [] →
    s.urlClosed = true ∧ s.urlChan = [])

theorem poolInv_init (f : ScrapeFunc) (urls : List String) (n cap : Nat) :
    PoolInv f urls (initPool urls n cap) := by
  refine ⟨?_, fun _ => rfl, ?_, ?_, ?_, ?_, ?_, ?_, ?_, ?_⟩
  · simp [urlAccount, initPool, heldAll_replicate_awaiting, listCoe_nil]
  · intro _ q hq; simp [initPool] at hq
  · intro _ u res hm; simp [initPool, List.mem_replicate] at hm
  · intro q hq; simp [initPool] at hq
  · intro u res hm; simp [initPool, List.mem_replicate] at hm
  · intro h; simp [initPool] at h
  · intro _; exact ⟨rfl, rfl, rfl⟩
  · intro h; simp [initPool] at h
  · intro _ hall hne
    exfalso
    rcases Nat.eq_zero_or_pos n with hn | hn
    · subst hn
      exact hne (by simp [initPool])
    · have hmem : WState.awaiting ∈ (initPool urls n cap).workers := by
        simp [initPool, List.mem_replicate]
        omega
      exact absurd (hall _ hmem) (by decide)

theorem mem_split_self (x : WState) (l r : List WState) : x ∈ l ++ x :: r :=
  List.mem_append.mpr (Or.inr (List.mem_cons_self _ _))

theorem mem_split_cases {w x : WState} {l r : List WState} (h : w ∈ l ++ x :: r) :
    w = x ∨ (w ∈ l ∨ w ∈ r) := by
  rcases List.mem_append.mp h with hl | hc
  · exact Or.inr (Or.inl hl)
  · rcases List.mem_cons.mp hc with he | hr
    · exact Or.inl he
    · exact Or.inr (Or.inr hr)

theorem mem_split_intro {w : WState} (x : WState) {l r : List WState}
    (h : w ∈ l ∨ w ∈ r) : w ∈ l ++ x :: r := by
  rcases h with hl | hr
  · exact List.mem_append.mpr (Or.inl hl)
  · exact List.mem_append.mpr (Or.inr (List.mem_cons_of_mem _ hr))

/-- `PoolInv` is preserved by every pool transition. -/
theorem poolInv_step {f : ScrapeFunc} {urls : List String} {s t : PoolState}
    (hinv : PoolInv f urls s) (h : PStep f s t) : PoolInv f urls t := by
  obtain ⟨hacc, hdrop, hresNC, hsendNC, hresF, hsendF, hseed, hsupW, hsupN, hquiet⟩ := hinv
  have hacc' : urlAccount t = ↑urls := by rw [urlAccount_step h, hacc]
  cases h with
  | cancel hc =>
      refine ⟨hacc', ?_, ?_, ?_, hresF, hsendF, hseed, hsupW, ?_, ?_⟩
      · intro hh; cases hh
      · intro hh; cases hh
      · intro hh; cases hh
      · intro hne
        obtain ⟨h1, h2, h3, h4⟩ := hsupN hne
        exact ⟨h1, h2, h3, h4⟩
      · intro hh; cases hh
  | seed u rest hcl hts =>
      refine ⟨hacc', hdrop, hresNC, hsendNC, hresF, hsendF, ?_, hsupW, hsupN, ?_⟩
      · intro hh; cases hcl ▸ hh
      · intro hnc hall hne
        exfalso
        have := (hquiet hnc hall hne).1
        rw [hcl] at this
        cases this
  | seedDone hcl hts =>
      refine ⟨hacc', hdrop, hresNC, hsendNC, hresF, hsendF, fun _ => hts, hsupW, hsupN, ?_⟩
      · intro hnc hall hne
        exfalso
        have := (hquiet hnc hall hne).1
        rw [hcl] at this
        cases this
  | seedCancel hcl hc =>
      refine ⟨hacc', ?_, ?_, ?_, hresF, hsendF, fun _ => rfl, hsupW, hsupN, ?_⟩
      · intro hh; rw [hc] at hh; cases hh
      · intro hh; rw [hc] at hh; cases hh
      · intro hh; rw [hc] at hh; cases hh
      · intro hh; rw [hc] at hh; cases hh
  | workerTake l r u rest hw hc =>
      have hsupw : s.sup = SupState.waiting := by
        by_contra hne
        have hall := (hsupN hne).2.2.2
        have := hall _ (hw ▸ mem_split_self .awaiting l r)
        cases this
      refine ⟨hacc', hdrop, hresNC, ?_, hresF, ?_, hseed, hsupW, ?_, ?_⟩
      · intro hnc u' res' hm
        rcases mem_split_cases hm with he | hlr
        · cases he
        · exact hsendNC hnc u' res' (hw ▸ mem_split_intro _ hlr)
      · intro u' res' hm
        rcases mem_split_cases hm with he | hlr
        · cases he
        · exact hsendF u' res' (hw ▸ mem_split_intro _ hlr)
      · intro hne; exact absurd hsupw hne
      · intro hnc hall hne
        exfalso
        have := hall _ (mem_split_self (.gotItem u) l r)
        cases this
  | workerExit l r hw hc hcl =>
      have hsupw : s.sup = SupState.waiting := by
        by_contra hne
        have hall := (hsupN hne).2.2.2
        have := hall _ (hw ▸ mem_split_self .awaiting l r)
        cases this
      refine ⟨hacc', hdrop, hresNC, ?_, hresF, ?_, hseed, hsupW, ?_, ?_⟩
      · intro hnc u' res' hm
        rcases mem_split_cases hm with he | hlr
        · cases he
        · exact hsendNC hnc u' res' (hw ▸ mem_split_intro _ hlr)
      · intro u' res' hm
        rcases mem_split_cases hm with he | hlr
        · cases he
        · exact hsendF u' res' (hw ▸ mem_split_intro _ hlr)
      · intro hne; exact absurd hsupw hne
      · intro hnc hall hne
        exact ⟨hcl, hc⟩
  | workerToken l r u hw ht =>
      have hsupw : s.sup = SupState.waiting := by
        by_contra hne
        have hall := (hsupN hne).2.2.2
        have := hall _ (hw ▸ mem_split_self (.gotItem u) l r)
        cases this
      refine ⟨hacc', hdrop, hresNC, ?_, hresF, ?_, hseed, hsupW, ?_, ?_⟩
      · intro hnc u' res' hm
        rcases mem_split_cases hm with he | hlr
        · cases he
        · exact hsendNC hnc u' res' (hw ▸ mem_split_intro _ hlr)
      · intro u' res' hm
        rcases mem_split_cases hm with he | hlr
        · cases he
        · exact hsendF u' res' (hw ▸ mem_split_intro _ hlr)
      · intro hne; exact absurd hsupw hne
      · intro hnc hall hne
        exfalso
        have := hall _ (mem_split_self (.scraping u) l r)
        cases this
  | workerTokenCancel l r u hw hc =>
      have hsupw : s.sup = SupState.waiting := by
        by_contra hne
        have hall := (hsupN hne).2.2.2
        have := hall _ (hw ▸ mem_split_self (.gotItem u) l r)
        cases this
      refine ⟨hacc', ?_, ?_, ?_, hresF, ?_, hseed, hsupW, ?_, ?_⟩
      · intro hh; rw [hc] at hh; cases hh
      · intro hh; rw [hc] at hh; cases hh
      · intro hh; rw [hc] at hh; cases hh
      · intro u' res' hm
        rcases mem_split_cases hm with he | hlr
        · cases he
        · exact hsendF u' res' (hw ▸ mem_split_intro _ hlr)
      · intro hne; exact absurd hsupw hne
      · intro hh; rw [hc] at hh; cases hh
  | workerScrape l r u hw =>
      have hsupw : s.sup = SupState.waiting := by
        by_contra hne
        have hall := (hsupN hne).2.2.2
        have := hall _ (hw ▸ mem_split_self (.scraping u) l r)
        cases this
      refine ⟨hacc', hdrop, hresNC, ?_, hresF, ?_, hseed, hsupW, ?_, ?_⟩
      · intro hnc u' res' hm
        rcases mem_split_cases hm with he | hlr
        · cases he
          rw [hnc]
        · exact hsendNC hnc u' res' (hw ▸ mem_split_intro _ hlr)
      · intro u' res' hm
        rcases mem_split_cases hm with he | hlr
        · cases he
          cases hcv : s.cancelled
          · exact Or.inr rfl
          · exact Or.inl rfl
        · exact hsendF u' res' (hw ▸ mem_split_intro _ hlr)
      · intro hne; exact absurd hsupw hne
      · intro hnc hall hne
        exfalso
        have := hall _ (mem_split_self (.sending u (f s.cancelled u)) l r)
        cases this
  | workerSend l r u res hw =>
      have hsmem : WState.sending u res ∈ s.workers :=
        hw ▸ mem_split_self (.sending u res) l r
      have hsupw : s.sup = SupState.waiting := by
        by_contra hne
        have hall := (hsupN hne).2.2.2
        have := hall _ hsmem
        cases this
      refine ⟨hacc', hdrop, ?_, ?_, ?_, ?_, hseed, hsupW, ?_, ?_⟩
      · intro hnc q hq
        rcases List.mem_append.mp hq with hold | hnew
        · exact hresNC hnc q hold
        · rcases List.mem_singleton.mp hnew with rfl
          exact hsendNC hnc u res hsmem
      · intro hnc u' res' hm
        rcases mem_split_cases hm with he | hlr
        · cases he
        · exact hsendNC hnc u' res' (hw ▸ mem_split_intro _ hlr)
      · intro q hq
        rcases List.mem_append.mp hq with hold | hnew
        · exact hresF q hold
        · rcases List.mem_singleton.mp hnew with rfl
          exact hsendF u res hsmem
      · intro u' res' hm
        rcases mem_split_cases hm with he | hlr
        · cases he
        · exact hsendF u' res' (hw ▸ mem_split_intro _ hlr)
      · intro hne; exact absurd hsupw hne
      · intro hnc hall hne
        exfalso
        have := hall _ (mem_split_self .awaiting l r)
        cases this
  | workerSendCancel l r u res hw hc =>
      have hsupw : s.sup = SupState.waiting := by
        by_contra hne
        have hall := (hsupN hne).2.2.2
        have := hall _ (hw ▸ mem_split_self (.sending u res) l r)
        cases this
      refine ⟨hacc', ?_, ?_, ?_, hresF, ?_, hseed, hsupW, ?_, ?_⟩
      · intro hh; rw [hc] at hh; cases hh
      · intro hh; rw [hc] at hh; cases hh
      · intro hh; rw [hc] at hh; cases hh
      · intro u' res' hm
        rcases mem_split_cases hm with he | hlr
        · cases he
        · exact hsendF u' res' (hw ▸ mem_split_intro _ hlr)
      · intro hne; exact absurd hsupw hne
      · intro hh; rw [hc] at hh; cases hh
  | tick ha hlt =>
      exact ⟨hacc', hdrop, hresNC, hsendNC, hresF, hsendF, hseed, hsupW, hsupN, hquiet⟩
  | tickerCtxExit ha hc =>
      exact ⟨hacc', hdrop, hresNC, hsendNC, hresF, hsendF, hseed, hsupW, hsupN, hquiet⟩
  | supClose hs hws =>
      refine ⟨hacc', hdrop, hresNC, hsendNC, hresF, hsendF, hseed, ?_, ?_, hquiet⟩
      · intro hh; cases hh
      · intro _
        obtain ⟨h1, h2, h3⟩ := hsupW hs
        exact ⟨rfl, by rw [h2], by rw [h3], hws⟩
  | supStopDone hs ha =>
      refine ⟨hacc', hdrop, hresNC, hsendNC, hresF, hsendF, hseed, ?_, ?_, hquiet⟩
      · intro hh; cases hh
      · intro _
        obtain ⟨h1, h2, h3, h4⟩ := hsupN (by rw [hs]; intro hh; cases hh)
        exact ⟨h1, h2, h3, h4⟩

/-- `PoolInv` holds in every state reachable from the pool's initial state. -/
theorem poolInv_reach {f : ScrapeFunc} {urls : List String} {n cap : Nat}
    {s : PoolState} (h : PReach f (initPool urls n cap) s) : PoolInv f urls s := by
  induction h with
  | refl => exact poolInv_init f urls n cap
  | tail _ hstep ih => exact poolInv_step ih hstep

/-- Reachable pool states keep the original number of workers. -/
theorem workers_length_reach {f : ScrapeFunc} {p s : PoolState}
    (h : PReach f p s) : s.workers.length = p.workers.length := by
  induction h with
  | refl => rfl
  | tail _ hstep ih => rw [workers_length_step hstep, ih]

/-- A successful `ScrapeURLs` call determines the attached limiter and the
initial pool state. -/
theorem scrapeURLs_ok {sc : RateLimitedScraper} {urls : List String}
    {p : PoolState} (hok : ScrapeURLs sc urls = Except.ok p) :
    ∃ r, sc.rlm = some r ∧ p = initPool urls sc.maxWorkers r.limitCap := by
  cases hr : sc.rlm with
  | none => rw [ScrapeURLs, hr] at hok; cases hok
  | some r =>
      rw [ScrapeURLs, hr] at hok
      exact ⟨r, rfl, (Except.ok.injEq _ _ ▸ hok).symm⟩

/-- C1: in a run of `ScrapeURLs` over `urls` with at least one worker, a rate
limiter attached, and a context that is never cancelled, whenever the result
stream has been closed it contains exactly `urls.length` results, the items
paired with the results being a permutation of the submitted items — each
submitted item represented exactly once — and every result is the scrape
function's return value for its item under an uncancelled context.  With zero
items the same statement yields a closed, empty stream. -/
theorem c1_each_item_exactly_once (sc : RateLimitedScraper) (urls : List String)
    (p s : PoolState) (hok : ScrapeURLs sc urls = Except.ok p)
    (hn : 1 ≤ sc.maxWorkers) (h : PReach sc.scrapeFunc p s)
    (hnc : s.cancelled = false) (hcl : s.resultsClosed = true) :
    s.results.length = urls.length ∧
    List.Perm (s.results.map Prod.fst) urls ∧
    ∀ q ∈ s.results, q.2 = sc.scrapeFunc false q.1 := by
  obtain ⟨r, hr, rfl⟩ := scrapeURLs_ok hok
  obtain ⟨hacc, hdrop, hresNC, hsendNC, hresF, hsendF, hseed, hsupW, hsupN, hquiet⟩ :=
    poolInv_reach h
  have hne : s.sup ≠ SupState.waiting := by
    intro hsup
    have := (hsupW hsup).1
    rw [hcl] at this
    cases this
  have hall : ∀ w ∈ s.workers, w = WState.done := (hsupN hne).2.2.2
  have hlen : s.workers.length = sc.maxWorkers := by
    rw [workers_length_reach h]
    simp [initPool]
  have hwne : s.workers ≠ [] := by
    intro hnil
    rw [hnil] at hlen
    simp at hlen
    omega
  obtain ⟨hclosed, hchan⟩ := hquiet hnc hall hwne
  have hts : s.toSeed = [] := hseed hclosed
  have hdr : s.droppedItems = [] := hdrop hnc
  have hheld : heldAll s.workers = 0 := heldAll_all_done hall
  rw [urlAccount, hts, hchan, hdr, hheld, listCoe_nil] at hacc
  simp only [zero_add, add_zero] at hacc
  have hperm : List.Perm (s.results.map Prod.fst) urls := Multiset.coe_eq_coe.mp hacc
  refine ⟨?_, hperm, hresNC hnc⟩
  have := hperm.length_eq
  simpa using this

/-- C7: in every reachable state of a `ScrapeURLs` run, `close(results)` has
executed at most once; it has executed exactly once precisely when the stream
is closed; the stream is only ever closed with every worker terminated; and
the number of begun `Stop()` calls on the rate limiter equals the number of
closes — so at the completion point the stream has been closed exactly once
and the limiter stopped exactly once, only after all workers finished. -/
theorem c7_close_once_after_workers (sc : RateLimitedScraper) (urls : List String)
    (p s : PoolState) (hok : ScrapeURLs sc urls = Except.ok p)
    (h : PReach sc.scrapeFunc p s) :
    s.closeCalls ≤ 1 ∧ (s.resultsClosed = true ↔ s.closeCalls = 1) ∧
    (s.resultsClosed = true → ∀ w ∈ s.workers, w = WState.done) ∧
    s.stopCalls = s.closeCalls := by
  obtain ⟨r, hr, rfl⟩ := scrapeURLs_ok hok
  obtain ⟨hacc, hdrop, hresNC, hsendNC, hresF, hsendF, hseed, hsupW, hsupN, hquiet⟩ :=
    poolInv_reach h
  by_cases hsup : s.sup = SupState.waiting
  · obtain ⟨h1, h2, h3⟩ := hsupW hsup
    refine ⟨by omega, ?_, ?_, by omega⟩
    · constructor
      · intro hh; rw [h1] at hh; cases hh
      · intro hh; rw [h2] at hh; cases hh
    · intro hh; rw [h1] at hh; cases hh
  · obtain ⟨h1, h2, h3, h4⟩ := hsupN hsup
    refine ⟨by omega, ?_, fun _ => h4, by omega⟩
    constructor
    · intro _; exact h2
    · intro _; exact h1

/-- C9 (amended): the dispatcher itself never injects the cancellation signal
into the result stream — every delivered `Result` is a return value of the
scrape function for the item it was produced from (under the cancelled or the
uncancelled context), and the items represented in the stream are a
sub-multiset of the submitted items, each represented at most once.  (The
original claim fails: an in-flight scrape that observes cancellation returns
a `Result` carrying the cancellation error, and its delivery can win the race
against `ctx.Done()`; see the counterexample.) -/
theorem c9_pool_injects_no_cancellation (sc : RateLimitedScraper)
    (urls : List String) (p s : PoolState)
    (hok : ScrapeURLs sc urls = Except.ok p) (h : PReach sc.scrapeFunc p s) :
    (∀ q ∈ s.results, q.2 = sc.scrapeFunc true q.1 ∨ q.2 = sc.scrapeFunc false q.1) ∧
    ((s.results.map Prod.fst : List String) : Multiset String) ≤ (urls : Multiset String) := by
  obtain ⟨r, hr, rfl⟩ := scrapeURLs_ok hok
  obtain ⟨hacc, hdrop, hresNC, hsendNC, hresF, hsendF, hseed, hsupW, hsupN, hquiet⟩ :=
    poolInv_reach h
  refine ⟨hresF, ?_⟩
  rw [Multiset.le_iff_exists_add]
  refine ⟨(s.toSeed : Multiset String) + (s.urlChan : Multiset String) +
    heldAll s.workers + (s.droppedItems : Multiset String), ?_⟩
  rw [← hacc, urlAccount]
  abel

/-! ## Concrete scenarios -/

/-- A transport for concrete runs: every URL answers with status 200. -/
def trOK : Transport := fun _ => Except.ok 200

/-- A concrete scraper with a rate limiter attached: the state of
`NewScraper(rps, 1)` after `SetRateLimit(ctx, timeSpan, 1)`. -/
def scEx : RateLimitedScraper :=
  { clientTimeoutSec := ScrapeTimeoutDuration, rlm := some { limitCap := 1 },
    maxWorkers := 1, scrapeFunc := scrapeURL trOK }

theorem scEx_from_constructors :
    SetRateLimit (NewScraper trOK 5 1) 1000000000 1 = some scEx := rfl

/-- The final state of a completed run over zero items with one worker. -/
def poolClosedEmpty : PoolState :=
  { cancelled := false, toSeed := [], urlChan := [], urlClosed := true,
    tokens := 0, limitCap := 1, tickerAlive := true, workers := [WState.done],
    results := [], resultsClosed := true, sup := SupState.stopping,
    closeCalls := 1, stopCalls := 1, droppedItems := [] }

/-- A complete schedule of the zero-item run: the seeder closes the empty
queue, the single worker exits, the supervisor closes the stream and begins
`Stop()`. -/
theorem emptyRunReach : PReach scEx.scrapeFunc (initPool [] 1 1) poolClosedEmpty := by
  have t1 : PStep scEx.scrapeFunc (initPool [] 1 1)
      { initPool [] 1 1 with urlClosed := true } :=
    PStep.seedDone _ rfl rfl
  have t2 : PStep scEx.scrapeFunc { initPool [] 1 1 with urlClosed := true }
      { initPool [] 1 1 with urlClosed := true, workers := [WState.done] } :=
    PStep.workerExit _ [] [] rfl rfl rfl
  have t3 : PStep scEx.scrapeFunc
      { initPool [] 1 1 with urlClosed := true, workers := [WState.done] }
      poolClosedEmpty :=
    PStep.supClose _ rfl (by decide)
  exact Relation.ReflTransGen.tail
    (Relation.ReflTransGen.tail (Relation.ReflTransGen.single t1) t2) t3

/-- Witness for C1 at the zero-item instance: the hypotheses hold for the
concrete scraper `scEx` and the schedule `emptyRunReach`, and the closed
stream carries exactly `0 = length []` results. -/
theorem c1_each_item_exactly_once_witness :
    ScrapeURLs scEx [] = Except.ok (initPool [] 1 1) ∧
    1 ≤ scEx.maxWorkers ∧
    poolClosedEmpty.cancelled = false ∧ poolClosedEmpty.resultsClosed = true ∧
    poolClosedEmpty.results.length = ([] : List String).length :=
  ⟨rfl, by decide, rfl, rfl,
    (c1_each_item_exactly_once scEx [] _ _ rfl (by decide) emptyRunReach rfl rfl).1⟩

/-- Witness for C7: in the completed zero-item run the stream was closed
exactly once and the limiter stopped exactly once. -/
theorem c7_close_once_after_workers_witness :
    ScrapeURLs scEx [] = Except.ok (initPool [] 1 1) ∧
    poolClosedEmpty.closeCalls ≤ 1 ∧
    poolClosedEmpty.stopCalls = poolClosedEmpty.closeCalls :=
  ⟨rfl,
    (c7_close_once_after_workers scEx [] _ _ rfl emptyRunReach).1,
    (c7_close_once_after_workers scEx [] _ _ rfl emptyRunReach).2.2.2⟩

/-- Witness for C9 (amended), at the initial state of a one-item run. -/
theorem c9_pool_injects_no_cancellation_witness :
    ScrapeURLs scEx ["a"] = Except.ok (initPool ["a"] 1 1) ∧
    (((initPool ["a"] 1 1).results.map Prod.fst : List String) : Multiset String) ≤
      ((["a"] : List String) : Multiset String) :=
  ⟨rfl,
    (c9_pool_injects_no_cancellation scEx ["a"] _ _ rfl
      Relation.ReflTransGen.refl).2⟩

/-- The state of a one-item run in which the context was cancelled while the
scrape was in flight and the resulting cancellation-carrying `Result` was
nonetheless delivered into the buffered output channel. -/
def poolC9 : PoolState :=
  { cancelled := true, toSeed := [], urlChan := [], urlClosed := false,
    tokens := 0, limitCap := 1, tickerAlive := true,
    workers := [WState.awaiting],
    results := [("a", { URL := "a", Content := "", Error := some GoError.ctxCanceled })],
    resultsClosed := false, sup := SupState.waiting, closeCalls := 0,
    stopCalls := 0, droppedItems := [] }

/-- Counterexample to C9 as stated: there is a run of `ScrapeURLs` in which a
`Result` whose `Error` carries the cancellation signal is delivered on the
result stream.  Schedule: seed; take; tick; acquire token; the context is
cancelled mid-scrape, so `client.Do` returns an error wrapping
`context.Canceled`; the send of that `Result` wins the nondeterministic race
against `ctx.Done()` (the buffered channel has room). -/
theorem c9_cancellation_error_delivered_counterexample :
    ScrapeURLs scEx ["a"] = Except.ok (initPool ["a"] 1 1) ∧
    PReach scEx.scrapeFunc (initPool ["a"] 1 1) poolC9 ∧
    ("a", { URL := "a", Content := "", Error := some GoError.ctxCanceled }) ∈
      poolC9.results := by
  refine ⟨rfl, ?_, by decide⟩
  have t1 : PStep scEx.scrapeFunc (initPool ["a"] 1 1)
      { initPool ["a"] 1 1 with
        toSeed := []
        urlChan := ["a"] } :=
    PStep.seed _ "a" [] rfl rfl
  have t2 : PStep scEx.scrapeFunc
      { initPool ["a"] 1 1 with
        toSeed := []
        urlChan := ["a"] }
      { initPool ["a"] 1 1 with
        toSeed := []
        urlChan := []
        workers := [WState.gotItem "a"] } :=
    PStep.workerTake _ [] [] "a" [] rfl rfl
  have t3 : PStep scEx.scrapeFunc
      { initPool ["a"] 1 1 with
        toSeed := []
        urlChan := []
        workers := [WState.gotItem "a"] }
      { initPool ["a"] 1 1 with
        toSeed := []
        urlChan := []
        workers := [WState.gotItem "a"]
        tokens := 1 } :=
    PStep.tick _ rfl (by decide)
  have t4 : PStep scEx.scrapeFunc
      { initPool ["a"] 1 1 with
        toSeed := []
        urlChan := []
        workers := [WState.gotItem "a"]
        tokens := 1 }
      { initPool ["a"] 1 1 with
        toSeed := []
        urlChan := []
        workers := [WState.scraping "a"]
        tokens := 0 } :=
    PStep.workerToken _ [] [] "a" rfl (by decide)
  have t5 : PStep scEx.scrapeFunc
      { initPool ["a"] 1 1 with
        toSeed := []
        urlChan := []
        workers := [WState.scraping "a"]
        tokens := 0 }
      { initPool ["a"] 1 1 with
        toSeed := []
        urlChan := []
        workers := [WState.scraping "a"]
        tokens := 0
        cancelled := true } :=
    PStep.cancel _ rfl
  have t6 : PStep scEx.scrapeFunc
      { initPool ["a"] 1 1 with
        toSeed := []
        urlChan := []
        workers := [WState.scraping "a"]
        tokens := 0
        cancelled := true }
      { initPool ["a"] 1 1 with
        toSeed := []
        urlChan := []
        workers := [WState.sending "a"
          { URL := "a", Content := "", Error := some GoError.ctxCanceled }]
        tokens := 0
        cancelled := true } :=
    PStep.workerScrape _ [] [] "a" rfl
  have t7 : PStep scEx.scrapeFunc
      { initPool ["a"] 1 1 with
        toSeed := []
        urlChan := []
        workers := [WState.sending "a"
          { URL := "a", Content := "", Error := some GoError.ctxCanceled }]
        tokens := 0
        cancelled := true }
      poolC9 :=
    PStep.workerSend _ [] [] "a" _ rfl
  exact Relation.ReflTransGen.tail
    (Relation.ReflTransGen.tail
      (Relation.ReflTransGen.tail
        (Relation.ReflTransGen.tail
          (Relation.ReflTransGen.tail
            (Relation.ReflTransGen.tail (Relation.ReflTransGen.single t1) t2)
            t3) t4) t5) t6) t7

/-- Once the limiter's ticker goroutine has exited and the supervisor is in
the `Stop()` rendezvous, every further step leaves the supervisor there:
the unbuffered send on `stopCh` has no receiver left. -/
theorem pool_stuck_step {f : ScrapeFunc} {s t : PoolState} (h : PStep f s t)
    (ha : s.tickerAlive = false) (hs : s.sup = SupState.stopping) :
    t.tickerAlive = false ∧ t.sup = SupState.stopping := by
  cases h <;> simp_all

/-- The stuck final state of a cancelled one-item run: stream closed, item
dropped, ticker gone via `ctx.Done()`, supervisor blocked forever in
`Stop()`. -/
def poolC8 : PoolState :=
  { cancelled := true, toSeed := [], urlChan := [], urlClosed := true,
    tokens := 0, limitCap := 1, tickerAlive := false, workers := [WState.done],
    results := [], resultsClosed := true, sup := SupState.stopping,
    closeCalls := 1, stopCalls := 1, droppedItems := ["a"] }

/-- C8 evidence: in a cancelled one-item run the stream still closes with at
most one result (truncation), but the supervisory goroutine never terminates:
once the ticker goroutine has exited via `ctx.Done()`, the supervisor's
`s.rlm.Stop()` — an unbuffered channel send — blocks forever, so in every
state reachable from this schedule the supervisor is still in `Stop()`:
background work is leaked, contradicting the claim. -/
theorem c8_supervisor_blocks_forever :
    ScrapeURLs scEx ["a"] = Except.ok (initPool ["a"] 1 1) ∧
    PReach scEx.scrapeFunc (initPool ["a"] 1 1) poolC8 ∧
    poolC8.resultsClosed = true ∧
    poolC8.results.length ≤ (["a"] : List String).length ∧
    ∀ t, PReach scEx.scrapeFunc poolC8 t →
      t.sup = SupState.stopping ∧ t.sup ≠ SupState.done := by
  refine ⟨rfl, ?_, rfl, by decide, ?_⟩
  · have t1 : PStep scEx.scrapeFunc (initPool ["a"] 1 1)
        { initPool ["a"] 1 1 with cancelled := true } :=
      PStep.cancel _ rfl
    have t2 : PStep scEx.scrapeFunc
        { initPool ["a"] 1 1 with cancelled := true }
        { initPool ["a"] 1 1 with cancelled := true, tickerAlive := false } :=
      PStep.tickerCtxExit _ rfl rfl
    have t3 : PStep scEx.scrapeFunc
        { initPool ["a"] 1 1 with cancelled := true, tickerAlive := false }
        { initPool ["a"] 1 1 with
          cancelled := true
          tickerAlive := false
          toSeed := []
          urlClosed := true
          droppedItems := ["a"] } :=
      PStep.seedCancel _ rfl rfl
    have t4 : PStep scEx.scrapeFunc
        { initPool ["a"] 1 1 with
          cancelled := true
          tickerAlive := false
          toSeed := []
          urlClosed := true
          droppedItems := ["a"] }
        { initPool ["a"] 1 1 with
          cancelled := true
          tickerAlive := false
          toSeed := []
          urlClosed := true
          droppedItems := ["a"]
          workers := [WState.done] } :=
      PStep.workerExit _ [] [] rfl rfl rfl
    have t5 : PStep scEx.scrapeFunc
        { initPool ["a"] 1 1 with
          cancelled := true
          tickerAlive := false
          toSeed := []
          urlClosed := true
          droppedItems := ["a"]
          workers := [WState.done] }
        poolC8 :=
      PStep.supClose _ rfl (by decide)
    exact Relation.ReflTransGen.tail
      (Relation.ReflTransGen.tail
        (Relation.ReflTransGen.tail
          (Relation.ReflTransGen.tail (Relation.ReflTransGen.single t1) t2)
          t3) t4) t5
  · intro t ht
    have hinv : t.tickerAlive = false ∧ t.sup = SupState.stopping := by
      induction ht with
      | refl => exact ⟨rfl, rfl⟩
      | tail _ hstep ih => exact pool_stuck_step hstep ih.1 ih.2
    refine ⟨hinv.2, ?_⟩
    rw [hinv.2]
    intro hh
    cases hh

/-- C6: `ScrapeURLs` fails synchronously if and only if no rate limiter is
attached, with exactly the configuration error `rate limiter not set`; with a
limiter attached it returns the live stream (the started pool), so the
missing limiter is the only pool-level synchronous failure. -/
theorem c6_missing_limiter_only_sync_failure (sc : RateLimitedScraper)
    (urls : List String) :
    (sc.rlm = none → ScrapeURLs sc urls = Except.error "rate limiter not set") ∧
    (∀ r, sc.rlm = some r →
      ScrapeURLs sc urls = Except.ok (initPool urls sc.maxWorkers r.limitCap)) ∧
    (∀ e, ScrapeURLs sc urls = Except.error e →
      sc.rlm = none ∧ e = "rate limiter not set") := by
  refine ⟨?_, ?_, ?_⟩
  · intro h; simp [ScrapeURLs, h]
  · intro r h; simp [ScrapeURLs, h]
  · intro e h
    cases hr : sc.rlm with
    | none =>
        simp only [ScrapeURLs, hr] at h
        exact ⟨rfl, (Except.error.injEq _ _ ▸ h).symm⟩
    | some r =>
        simp only [ScrapeURLs, hr] at h
        cases h

/-- Witness for C6: a freshly constructed scraper has no limiter and
`ScrapeURLs` fails with the configuration error. -/
theorem c6_missing_limiter_only_sync_failure_witness :
    ScrapeURLs (NewScraper trOK 3 2) ["x"] = Except.error "rate limiter not set" :=
  (c6_missing_limiter_only_sync_failure (NewScraper trOK 3 2) ["x"]).1 rfl

/-- C10: `NewScraper` ignores its `rps` argument entirely (two constructions
differing only in `rps` are equal), attaches no rate limiter, so every
`ScrapeURLs` call before `SetRateLimit` fails with the missing-rate-limiter
configuration error; and the rate shape enters only through the
`(timeSpan, intervals)` arguments of `SetRateLimit`, identically for every
`rps`. -/
theorem c10_rps_ignored_no_limiter (tr : Transport) (rps₁ rps₂ : Int) (w : Nat) :
    NewScraper tr rps₁ w = NewScraper tr rps₂ w ∧
    (NewScraper tr rps₁ w).rlm = none ∧
    (∀ urls, ScrapeURLs (NewScraper tr rps₁ w) urls =
      Except.error "rate limiter not set") ∧
    (∀ ts iv, SetRateLimit (NewScraper tr rps₁ w) ts iv =
      SetRateLimit (NewScraper tr rps₂ w) ts iv) :=
  ⟨rfl, rfl, fun _ => rfl, fun _ _ => rfl⟩

end AwesomeTools
